import Mathlib

/-!
Verification of the ASH backend's Availability Engine and Agent Orchestrator.

The Availability Engine is `calculateFreeSlots` in
`ash_backend/config/google.js` (lines 270-309).  Timestamps are modelled as
integers (JavaScript `Date` arithmetic is millisecond arithmetic), the
requested duration is the `duration` parameter in minutes, converted by the
source to milliseconds with `duration * 60 * 1000`.  The JavaScript field
`end` is a Lean keyword, so the Lean field is named `stop`.
-/

namespace Ash

/-- A half-open time interval `[start, stop)` with millisecond timestamps.
Mirrors the `{start, end}` objects consumed and produced by
`calculateFreeSlots` (the JS field `end` is named `stop` here). -/
structure Interval where
  start : Int
  stop : Int
deriving DecidableEq, Repr

/-- The comparison passed to `busyTimes.sort((a, b) => new Date(a.start) - new
Date(b.start))`: ascending order of `start`. -/
def startLE (a b : Interval) : Bool :=
  a.start ≤ b.start

/-- The in-place `busyTimes.sort(...)` call, modelled with a stable merge
sort (V8's `Array.prototype.sort` is stable). -/
def sortBusy (busy : List Interval) : List Interval :=
  busy.mergeSort startLE

/-- The `for (const busyTime of sortedBusyTimes)` loop of
`calculateFreeSlots`: given the running cursor `currentTime`, it emits the
gap `[currentTime, busyStart)` whenever `currentTime < busyStart` and the gap
is at least `duration * 60 * 1000` long, then advances the cursor to
`max(currentTime, busyEnd)`.  Returns the emitted slots together with the
final cursor value. -/
def freeLoop (duration : Int) : Int → List Interval → List Interval × Int
  | cur, [] => ([], cur)
  | cur, b :: rest =>
    let emitted : List Interval :=
      if cur < b.start ∧ b.start - cur ≥ duration * 60 * 1000 then
        [⟨cur, b.start⟩]
      else []
    let next := freeLoop duration (max cur b.stop) rest
    (emitted ++ next.1, next.2)

/-- `calculateFreeSlots(startTime, endTime, busyTimes, duration)` from
`ash_backend/config/google.js` lines 270-309: sort the busy list by start,
sweep the cursor over it emitting sufficiently long gaps, then emit the tail
gap `[currentTime, endTime)` under the same length test. -/
def calculateFreeSlots (startTime endTime : Int) (busyTimes : List Interval)
    (duration : Int) : List Interval :=
  let r := freeLoop duration startTime (sortBusy busyTimes)
  if r.2 < endTime ∧ endTime - r.2 ≥ duration * 60 * 1000 then
    r.1 ++ [⟨r.2, endTime⟩]
  else
    r.1

/-- The same call including its effect on the caller-supplied array:
`busyTimes.sort(...)` sorts the argument in place, so after the call the
argument holds the sorted permutation.  First component: the returned free
slots; second component: the final contents of the `busyTimes` argument. -/
def calculateFreeSlotsRun (startTime endTime : Int) (busyTimes : List Interval)
    (duration : Int) : List Interval × List Interval :=
  (calculateFreeSlots startTime endTime busyTimes duration, sortBusy busyTimes)

/-- Two intervals overlap when their intersection is nonempty (half-open
semantics). -/
def overlaps (a b : Interval) : Prop :=
  max a.start b.start < min a.stop b.stop

instance (a b : Interval) : Decidable (overlaps a b) := by
  unfold overlaps
  infer_instance

/-- `calculateFreeSlots` contains no `throw` and calls nothing that can
fail, so its `Except`-valued image always returns `ok`.  `InvalidRangeError`
is the error the specification attributes to precondition violations; no
such error (nor any validation of the window or duration) exists in the
source. -/
inductive EngineError where
  | invalidRange
deriving DecidableEq, Repr

/-- `Except`-valued embedding of the `calculateFreeSlots` call, faithful to
the absence of any throw path in the source body. -/
def calculateFreeSlotsE (startTime endTime : Int) (busyTimes : List Interval)
    (duration : Int) : Except EngineError (List Interval) :=
  .ok (calculateFreeSlots startTime endTime busyTimes duration)

/- Basic facts about the sweep loop. -/

theorem freeLoop_spec (d : Int) :
    ∀ (bs : List Interval) (cur : Int),
      bs.Pairwise (fun a b => a.start ≤ b.start) →
      (∀ b ∈ bs, b.start ≤ b.stop) →
      cur ≤ (freeLoop d cur bs).2 ∧
      (∀ b ∈ bs, b.stop ≤ (freeLoop d cur bs).2) ∧
      (∀ s ∈ (freeLoop d cur bs).1,
        cur ≤ s.start ∧ s.start < s.stop ∧ s.stop ≤ (freeLoop d cur bs).2) ∧
      (freeLoop d cur bs).1.Pairwise (fun s t => s.stop ≤ t.start) ∧
      (∀ s ∈ (freeLoop d cur bs).1, ∀ b ∈ bs,
        s.stop ≤ b.start ∨ b.stop ≤ s.start) := by
  intro bs
  induction bs with
  | nil =>
    intro cur _ _
    simp [freeLoop]
  | cons b rest ih =>
    intro cur hsorted hwf
    have hsorted_rest : rest.Pairwise (fun a b => a.start ≤ b.start) :=
      (List.pairwise_cons.mp hsorted).2
    have hble : ∀ x ∈ rest, b.start ≤ x.start :=
      (List.pairwise_cons.mp hsorted).1
    have hwf_rest : ∀ x ∈ rest, x.start ≤ x.stop := fun x hx =>
      hwf x (List.mem_cons_of_mem _ hx)
    have hwfb : b.start ≤ b.stop := hwf b (List.mem_cons_self _ _)
    obtain ⟨ih1, ih2, ih3, ih4, ih5⟩ :=
      ih (max cur b.stop) hsorted_rest hwf_rest
    have hcur' : cur ≤ max cur b.stop := le_max_left _ _
    have hbstop : b.stop ≤ max cur b.stop := le_max_right _ _
    by_cases hc : cur < b.start ∧ b.start - cur ≥ d * 60 * 1000
    · -- a gap slot [cur, b.start) is emitted
      refine ⟨?_, ?_, ?_, ?_, ?_⟩
      · show cur ≤ (freeLoop d cur (b :: rest)).2
        simp only [freeLoop, if_pos hc]
        exact le_trans hcur' ih1
      · intro x hx
        simp only [freeLoop, if_pos hc]
        rcases List.mem_cons.mp hx with hxb | hxr
        · subst hxb
          exact le_trans hbstop ih1
        · exact ih2 x hxr
      · intro s hs
        simp only [freeLoop, if_pos hc] at hs ⊢
        rcases List.mem_append.mp hs with hse | hsr
        · rcases List.mem_singleton.mp hse with rfl
          refine ⟨le_refl _, hc.1, ?_⟩
          show b.start ≤ (freeLoop d (max cur b.stop) rest).2
          exact le_trans (le_trans hwfb hbstop) ih1
        · obtain ⟨h1, h2, h3⟩ := ih3 s hsr
          exact ⟨le_trans hcur' h1, h2, h3⟩
      · simp only [freeLoop, if_pos hc]
        rw [List.pairwise_append]
        refine ⟨List.pairwise_singleton _ _, ih4, ?_⟩
        intro s hse t ht
        rcases List.mem_singleton.mp hse with rfl
        show b.start ≤ t.start
        exact le_trans (le_trans hwfb hbstop) (ih3 t ht).1
      · intro s hs x hx
        simp only [freeLoop, if_pos hc] at hs
        rcases List.mem_append.mp hs with hse | hsr
        · rcases List.mem_singleton.mp hse with rfl
          rcases List.mem_cons.mp hx with hxb | hxr
          · subst hxb
            exact Or.inl (le_refl _)
          · exact Or.inl (hble x hxr)
        · rcases List.mem_cons.mp hx with hxb | hxr
          · subst hxb
            exact Or.inr (le_trans hbstop (ih3 s hsr).1)
          · exact ih5 s hsr x hxr
    · -- no gap emitted before this busy interval
      refine ⟨?_, ?_, ?_, ?_, ?_⟩
      · show cur ≤ (freeLoop d cur (b :: rest)).2
        simp only [freeLoop, if_neg hc]
        exact le_trans hcur' ih1
      · intro x hx
        simp only [freeLoop, if_neg hc]
        rcases List.mem_cons.mp hx with hxb | hxr
        · subst hxb
          exact le_trans hbstop ih1
        · exact ih2 x hxr
      · intro s hs
        simp only [freeLoop, if_neg hc] at hs ⊢
        obtain ⟨h1, h2, h3⟩ := ih3 s hs
        exact ⟨le_trans hcur' h1, h2, h3⟩
      · simp only [freeLoop, if_neg hc]
        exact ih4
      · intro s hs x hx
        simp only [freeLoop, if_neg hc] at hs
        rcases List.mem_cons.mp hx with hxb | hxr
        · subst hxb
          exact Or.inr (le_trans hbstop (ih3 s hs).1)
        · exact ih5 s hs x hxr

theorem freeLoop_length (d : Int) :
    ∀ (bs : List Interval) (cur : Int), ∀ s ∈ (freeLoop d cur bs).1,
      s.stop - s.start ≥ d * 60 * 1000 := by
  intro bs
  induction bs with
  | nil =>
    intro cur s hs
    simp [freeLoop] at hs
  | cons b rest ih =>
    intro cur s hs
    by_cases hc : cur < b.start ∧ b.start - cur ≥ d * 60 * 1000
    · simp only [freeLoop, if_pos hc] at hs
      rcases List.mem_append.mp hs with hse | hsr
      · rcases List.mem_singleton.mp hse with rfl
        exact hc.2
      · exact ih (max cur b.stop) s hsr
    · simp only [freeLoop, if_neg hc] at hs
      exact ih (max cur b.stop) s hs

theorem sortBusy_pairwise (busy : List Interval) :
    (sortBusy busy).Pairwise (fun a b => a.start ≤ b.start) := by
  have h := @List.sorted_mergeSort Interval startLE
    (fun a b c hab hbc => by
      simp only [startLE, decide_eq_true_eq] at hab hbc ⊢
      exact le_trans hab hbc)
    (fun a b => by
      simp only [startLE, Bool.or_eq_true, decide_eq_true_eq]
      exact le_total a.start b.start)
    busy
  exact h.imp (fun hab => by simpa [startLE] using hab)

theorem sortBusy_perm (busy : List Interval) : (sortBusy busy).Perm busy :=
  List.mergeSort_perm busy startLE

theorem sortBusy_of_sorted {busy : List Interval}
    (h : busy.Pairwise (fun a b => a.start ≤ b.start)) :
    sortBusy busy = busy := by
  apply List.mergeSort_of_sorted
  exact h.imp (fun hab => by simpa [startLE] using hab)

theorem calculateFreeSlots_nil (ws we d : Int) :
    calculateFreeSlots ws we [] d =
      if ws < we ∧ we - ws ≥ d * 60 * 1000 then [⟨ws, we⟩] else [] := by
  unfold calculateFreeSlots sortBusy
  rw [List.mergeSort_nil]
  rfl

theorem not_overlaps_of_separated {s t : Interval}
    (h : s.stop ≤ t.start ∨ t.stop ≤ s.start) : ¬ overlaps s t := by
  intro hov
  rcases h with h | h
  · have h1 : t.start < s.stop :=
      lt_of_le_of_lt (le_max_right s.start t.start)
        (lt_of_lt_of_le hov (min_le_left s.stop t.stop))
    omega
  · have h1 : s.start < t.stop :=
      lt_of_le_of_lt (le_max_left s.start t.start)
        (lt_of_lt_of_le hov (min_le_right s.stop t.stop))
    omega

/-- Core structural facts about the output of `calculateFreeSlots`, for busy
lists whose intervals are well-formed (`start ≤ stop`): every emitted slot is
nonempty, consecutive slots are separated (`stop ≤` next `start`), and every
slot is separated from every input busy interval. -/
theorem calculateFreeSlots_strong (ws we d : Int) (busy : List Interval)
    (hwf : ∀ b ∈ busy, b.start ≤ b.stop) :
    (∀ s ∈ calculateFreeSlots ws we busy d, s.start < s.stop) ∧
    (calculateFreeSlots ws we busy d).Pairwise (fun s t => s.stop ≤ t.start) ∧
    (∀ s ∈ calculateFreeSlots ws we busy d, ∀ b ∈ busy,
      s.stop ≤ b.start ∨ b.stop ≤ s.start) := by
  have hmem : ∀ b : Interval, b ∈ sortBusy busy ↔ b ∈ busy := fun b =>
    (sortBusy_perm busy).mem_iff
  have hwf' : ∀ b ∈ sortBusy busy, b.start ≤ b.stop := fun b hb =>
    hwf b ((hmem b).mp hb)
  obtain ⟨h1, h2, h3, h4, h5⟩ :=
    freeLoop_spec d (sortBusy busy) ws (sortBusy_pairwise busy) hwf'
  unfold calculateFreeSlots
  by_cases hfin : (freeLoop d ws (sortBusy busy)).2 < we ∧
      we - (freeLoop d ws (sortBusy busy)).2 ≥ d * 60 * 1000
  · simp only [if_pos hfin]
    refine ⟨?_, ?_, ?_⟩
    · intro s hs
      rcases List.mem_append.mp hs with hsr | hse
      · exact (h3 s hsr).2.1
      · rcases List.mem_singleton.mp hse with rfl
        exact hfin.1
    · rw [List.pairwise_append]
      refine ⟨h4, List.pairwise_singleton _ _, ?_⟩
      intro s hsr t hte
      rcases List.mem_singleton.mp hte with rfl
      exact (h3 s hsr).2.2
    · intro s hs b hb
      rcases List.mem_append.mp hs with hsr | hse
      · exact h5 s hsr b ((hmem b).mpr hb)
      · rcases List.mem_singleton.mp hse with rfl
        exact Or.inr (h2 b ((hmem b).mpr hb))
  · simp only [if_neg hfin]
    refine ⟨fun s hs => (h3 s hs).2.1, h4, fun s hs b hb => h5 s hs b ((hmem b).mpr hb)⟩

/-- C1: for every window, every well-formed busy list (any order, overlaps
and duplicates allowed) and every requested duration, the free slots
returned by `calculateFreeSlots` are pairwise disjoint, strictly
chronologically ordered by start, and none of them overlaps any input busy
interval. -/
theorem calculateFreeSlots_disjoint_ordered_avoids_busy
    (ws we d : Int) (busy : List Interval)
    (hwf : ∀ b ∈ busy, b.start ≤ b.stop) :
    (calculateFreeSlots ws we busy d).Pairwise (fun s t => ¬ overlaps s t) ∧
    (calculateFreeSlots ws we busy d).Pairwise (fun s t => s.start < t.start) ∧
    (∀ s ∈ calculateFreeSlots ws we busy d, ∀ b ∈ busy, ¬ overlaps s b) := by
  obtain ⟨hne, hsep, hbusy⟩ := calculateFreeSlots_strong ws we d busy hwf
  refine ⟨?_, ?_, ?_⟩
  · exact hsep.imp (fun h => not_overlaps_of_separated (Or.inl h))
  · refine hsep.imp_of_mem ?_
    intro s t hs _ hst
    exact lt_of_lt_of_le (hne s hs) hst
  · intro s hs b hb
    exact not_overlaps_of_separated (hbusy s hs b hb)

/-- Witness for C1 at a concrete input: window `[0, 1800000)`, busy
`[[600000, 1200000)]`, duration 5 minutes. -/
theorem calculateFreeSlots_disjoint_ordered_avoids_busy_witness :
    (calculateFreeSlots 0 1800000 [⟨600000, 1200000⟩] 5).Pairwise
      (fun s t => ¬ overlaps s t) ∧
    (calculateFreeSlots 0 1800000 [⟨600000, 1200000⟩] 5).Pairwise
      (fun s t => s.start < t.start) ∧
    (∀ s ∈ calculateFreeSlots 0 1800000 [⟨600000, 1200000⟩] 5,
      ∀ b ∈ [(⟨600000, 1200000⟩ : Interval)], ¬ overlaps s b) :=
  calculateFreeSlots_disjoint_ordered_avoids_busy 0 1800000 5
    [⟨600000, 1200000⟩] (by decide)

/-- C2: every free slot returned by `calculateFreeSlots` has length at least
the requested minimum duration (`duration` minutes, i.e.
`duration * 60 * 1000` milliseconds); no under-length slot is ever
emitted. -/
theorem calculateFreeSlots_min_duration (ws we d : Int) (busy : List Interval) :
    ∀ s ∈ calculateFreeSlots ws we busy d, s.stop - s.start ≥ d * 60 * 1000 := by
  intro s hs
  unfold calculateFreeSlots at hs
  by_cases hfin : (freeLoop d ws (sortBusy busy)).2 < we ∧
      we - (freeLoop d ws (sortBusy busy)).2 ≥ d * 60 * 1000
  · simp only [if_pos hfin] at hs
    rcases List.mem_append.mp hs with hsr | hse
    · exact freeLoop_length d (sortBusy busy) ws s hsr
    · rcases List.mem_singleton.mp hse with rfl
      exact hfin.2
  · simp only [if_neg hfin] at hs
    exact freeLoop_length d (sortBusy busy) ws s hs

/-- Witness for C2 at a concrete input: the slot `[0, 600000)` returned for
an empty busy list over window `[0, 600000)` with duration 5 minutes. -/
theorem calculateFreeSlots_min_duration_witness :
    (⟨0, 600000⟩ : Interval).stop - (⟨0, 600000⟩ : Interval).start ≥
      5 * 60 * 1000 :=
  calculateFreeSlots_min_duration 0 600000 5 [] ⟨0, 600000⟩ (by
    rw [calculateFreeSlots_nil, if_pos (by decide)]
    exact List.mem_singleton_self _)

/-- C3 as stated is false: on the literal input busy `[{10,20},{15,25}]`,
window `[0,30]`, `minDuration = 5`, the source compares gap lengths against
`duration * 60 * 1000` (minutes converted to milliseconds), so both
candidate gaps fail the length test and the result is `[]`, not
`[{0,10},{25,30}]`. -/
theorem calculateFreeSlots_overlap_example_counterexample :
    calculateFreeSlots 0 30 [⟨10, 20⟩, ⟨15, 25⟩] 5 = [] ∧
    calculateFreeSlots 0 30 [⟨10, 20⟩, ⟨15, 25⟩] 5 ≠ [⟨0, 10⟩, ⟨25, 30⟩] := by
  have h : calculateFreeSlots 0 30 [⟨10, 20⟩, ⟨15, 25⟩] 5 = [] := by
    unfold calculateFreeSlots
    rw [sortBusy_of_sorted (by simp [List.pairwise_cons])]
    decide
  exact ⟨h, by rw [h]; decide⟩

/-- C3 amended: with the spec's example expressed in the source's units
(timestamps in milliseconds, `minDuration` in minutes, every time scaled by
60000), busy `[{600000,1200000},{900000,1500000}]`, window `[0,1800000]`
and `minDuration = 5` yield exactly `[{0,600000},{1500000,1800000}]`: the
overlapping busy pair collapses into the single blocked region
`[600000,1500000)` via the `max(cur, interval.end)` cursor rule. -/
theorem calculateFreeSlots_overlap_example_scaled :
    calculateFreeSlots 0 1800000 [⟨600000, 1200000⟩, ⟨900000, 1500000⟩] 5 =
      [⟨0, 600000⟩, ⟨1500000, 1800000⟩] := by
  unfold calculateFreeSlots
  rw [sortBusy_of_sorted (by simp [List.pairwise_cons])]
  decide

/-- C4 as stated is false: a call with `windowStart = 30 ≥ 0 = windowEnd`
returns normally with `ok []`; no `InvalidRangeError` is raised (the source
performs no validation of the window or the duration). -/
theorem calculateFreeSlotsE_no_invalid_range_counterexample :
    calculateFreeSlotsE 30 0 [] 5 = .ok [] ∧
    calculateFreeSlotsE 30 0 [] 5 ≠ .error .invalidRange := by
  have h : calculateFreeSlotsE 30 0 [] 5 = .ok [] := by
    unfold calculateFreeSlotsE
    rw [calculateFreeSlots_nil, if_neg (by decide)]
  refine ⟨h, ?_⟩
  rw [h]
  intro hc
  exact Except.noConfusion hc

/-- C4 amended: the availability computation validates nothing and never
fails — every call, including those with `windowStart ≥ windowEnd` or
`minDuration ≤ 0`, returns `ok`; with `windowStart ≥ windowEnd` and an
empty busy list the result is `ok []`. -/
theorem calculateFreeSlotsE_never_fails (ws we d : Int) (busy : List Interval) :
    (calculateFreeSlotsE ws we busy d).isOk = true ∧
    (ws ≥ we → calculateFreeSlotsE ws we [] d = .ok []) := by
  constructor
  · rfl
  · intro h
    unfold calculateFreeSlotsE calculateFreeSlots sortBusy freeLoop
    simp only [List.mergeSort_nil]
    rw [if_neg]
    intro hc
    omega

/-- Witness for C4 amended at a concrete input. -/
theorem calculateFreeSlotsE_never_fails_witness :
    (calculateFreeSlotsE 30 0 [⟨1, 2⟩] 5).isOk = true ∧
    calculateFreeSlotsE 30 0 [] 5 = .ok [] :=
  ⟨(calculateFreeSlotsE_never_fails 30 0 5 [⟨1, 2⟩]).1,
   (calculateFreeSlotsE_never_fails 30 0 5 []).2 (by decide)⟩

/-- C5 as stated is false: `calculateFreeSlots` sorts its `busyTimes`
argument in place (`busyTimes.sort(...)`), so after a call with the
unsorted busy list `[{20,25},{0,5}]` the argument holds `[{0,5},{20,25}]`,
not its original contents. -/
theorem calculateFreeSlotsRun_mutates_counterexample :
    (calculateFreeSlotsRun 0 30 [⟨20, 25⟩, ⟨0, 5⟩] 0).2 ≠
      [⟨20, 25⟩, ⟨0, 5⟩] := by
  intro h
  have hp := sortBusy_pairwise [⟨20, 25⟩, ⟨0, 5⟩]
  have h2 : (calculateFreeSlotsRun 0 30 [⟨20, 25⟩, ⟨0, 5⟩] 0).2 =
      sortBusy [⟨20, 25⟩, ⟨0, 5⟩] := rfl
  rw [h2] at h
  rw [h] at hp
  have h20 : (20 : Int) ≤ 0 :=
    (List.pairwise_cons.mp hp).1 ⟨0, 5⟩ (List.mem_singleton_self _)
  omega

/-- C5 amended: `calculateFreeSlots` is deterministic (identical inputs give
identical outputs — immediate, since the embedding is a pure function), but
it is not free of side effects: it sorts its busy-list argument in place.
After the call the argument holds the same intervals permuted into
nondecreasing start order, so it is unchanged exactly when it was already
sorted; rerunning the computation on the mutated argument returns the same
free slots. -/
theorem calculateFreeSlotsRun_sorts_in_place (ws we d : Int)
    (busy : List Interval) :
    (calculateFreeSlotsRun ws we busy d).2.Perm busy ∧
    (calculateFreeSlotsRun ws we busy d).2.Pairwise
      (fun a b => a.start ≤ b.start) ∧
    (busy.Pairwise (fun a b => a.start ≤ b.start) →
      (calculateFreeSlotsRun ws we busy d).2 = busy) ∧
    calculateFreeSlots ws we (calculateFreeSlotsRun ws we busy d).2 d =
      calculateFreeSlots ws we busy d := by
  refine ⟨sortBusy_perm busy, sortBusy_pairwise busy,
    fun h => sortBusy_of_sorted h, ?_⟩
  show calculateFreeSlots ws we (sortBusy busy) d = calculateFreeSlots ws we busy d
  unfold calculateFreeSlots
  rw [sortBusy_of_sorted (sortBusy_pairwise busy)]

/-- Witness for C5 amended at a concrete input (an already-sorted busy
list, discharging the inner implication). -/
theorem calculateFreeSlotsRun_sorts_in_place_witness :
    (calculateFreeSlotsRun 0 30 [⟨0, 5⟩, ⟨20, 25⟩] 0).2.Perm
      [⟨0, 5⟩, ⟨20, 25⟩] ∧
    (calculateFreeSlotsRun 0 30 [⟨0, 5⟩, ⟨20, 25⟩] 0).2 =
      [⟨0, 5⟩, ⟨20, 25⟩] :=
  ⟨(calculateFreeSlotsRun_sorts_in_place 0 30 0 [⟨0, 5⟩, ⟨20, 25⟩]).1,
   (calculateFreeSlotsRun_sorts_in_place 0 30 0 [⟨0, 5⟩, ⟨20, 25⟩]).2.2.1
     (by decide)⟩

/-!
## Agent Orchestrator

Embedding of the `ASHAgent` class (unnamed source file `part_002`):
`processRequest` (lines 254-398), `executeTools` (lines 401-451) and the
seven tool handlers (lines 452-668), together with the `googleService`
collaborator wrappers they call (`ash_backend/config/google.js`).

External effects (the OpenAI completion calls, the Google calendar/mail
calls, the Mongoose `save`/`logInteraction` writes and the freebusy query)
are modelled by oracles: each call site reads its outcome from an
explicitly passed `Except String`-valued field, `error` meaning the awaited
promise rejected with that message.  The persisted `Event` collection is an
explicit list threaded through the handlers; interaction logs live in a
separate collection and are modelled only through their outcomes.  Prompt
assembly (persona text, chat context, the user utterance) does not affect
any modelled observable, since the model-call outcomes are supplied by the
oracle, and is therefore not represented.
-/

/-- One stored `Event` document (`ash_backend/models/Event.js`).  The JS
fields `description` and `endTime` are named `descr` and `stopTime`. -/
structure EventRec where
  id : String
  userId : String
  googleEventId : Option String := none
  title : String := ""
  descr : String := ""
  startTime : Int := 0
  stopTime : Int := 0
  attendees : List String := []
  location : String := ""
  status : String := "scheduled"
  reminderTime : Option Int := none
deriving DecidableEq, Repr

/-- The `Event` collection. -/
abbrev Db := List EventRec

/-- `Event.findById(eventId)`: `none` for a missing or absent id (mongoose
returns `null`). -/
def findById (db : Db) (eventId : Option String) : Option EventRec :=
  match eventId with
  | none => none
  | some i => db.find? (fun e => e.id == i)

/-- `event.save()` on an existing document: replace the stored document
with the mutated one. -/
def updateById (db : Db) (i : String) (ev : EventRec) : Db :=
  db.map (fun e => if e.id == i then ev else e)

/-- `Event.findUpcoming(userId, limit)` (`models/Event.js` lines 200-206):
non-cancelled events of the user starting at or after now, ascending by
start time, truncated to `limit`. -/
def findUpcoming (db : Db) (userId : String) (now : Int) (limit : Int) :
    List EventRec :=
  ((db.filter (fun e =>
      e.userId == userId && decide (e.startTime ≥ now) && e.status != "cancelled")).mergeSort
    (fun a b => a.startTime ≤ b.startTime)).take limit.toNat

/-- The parsed `arguments` object of one tool call: a record of the fields
the seven tool schemas declare, each `none` when the key is absent.
Timestamps are parsed to integer milliseconds. -/
structure ToolArgs where
  startDate : Option Int := none
  endDate : Option Int := none
  duration : Option Int := none
  title : Option String := none
  descr : Option String := none
  startTime : Option Int := none
  endTime : Option Int := none
  attendees : Option (List String) := none
  location : Option String := none
  eventId : Option String := none
  limit : Option Int := none
  minutesBefore : Option Int := none

/-- One tool call emitted by the model: `id`, `function.name`, and
`function.arguments`; `args = .error m` models `JSON.parse` throwing with
message `m`. -/
structure ToolCallIn where
  id : String
  name : String
  args : Except String ToolArgs

/-- Outcomes of the external calls one tool dispatch can make, plus the
fresh `_id` mongoose would assign and the current clock.  An `error` value
means the awaited call rejects with that message. -/
structure CollabOracle where
  freeBusy : Except String (List Interval) := .ok []
  create : Except String String := .ok "gcal-1"
  update : Except String Unit := .ok ()
  delete : Except String Unit := .ok ()
  invite : Except String Unit := .ok ()
  save : Except String Unit := .ok ()
  log : Except String Unit := .ok ()
  newId : String := "evt-1"
  now : Int := 0

/-- The structured value a tool handler produces (the source stringifies it
into the result entry).  `okSlots`/`okEvents`/`okMsg` are the handlers'
success shapes; `failMsg e` is the handlers' caught-error shape
(success false with an error message); `errOnly e` is the bare error object
pushed by the unknown-tool default case and by the `executeTools` catch
block. -/
inductive ToolResVal where
  | okSlots (slots : List Interval)
  | okEvents (eventIds : List String)
  | okMsg (message : String)
  | failMsg (error : String)
  | errOnly (error : String)
deriving DecidableEq, Repr

/-- An entry of the `results` array built by `executeTools`. -/
structure ToolEntry where
  tool_call_id : String
  result : ToolResVal
deriving DecidableEq, Repr

/-- External calls and `Event`-collection writes a dispatch attempts. -/
inductive Effect where
  | calendarFreeBusy
  | calendarCreate
  | calendarUpdate
  | calendarDelete
  | mailSendInvite
  | dbSave (eventId : String)
deriving DecidableEq, Repr

/-- `googleService.getFreeSlots` (`google.js` lines 95-116): freebusy query
(outcome from the oracle) fed into `calculateFreeSlots`; any internal
failure is caught and rethrown as a fixed message. -/
def gsGetFreeSlots (o : CollabOracle) (startTime endTime duration : Int) :
    Except String (List Interval) :=
  match o.freeBusy with
  | .error _ => .error "Failed to get free time slots"
  | .ok busy => .ok (calculateFreeSlots startTime endTime busy duration)

/-- `googleService.createEvent` (`google.js` lines 117-156): returns the
created Google event id, rethrowing failures as a fixed message. -/
def gsCreateEvent (o : CollabOracle) : Except String String :=
  match o.create with
  | .error _ => .error "Failed to create calendar event"
  | .ok gid => .ok gid

/-- `googleService.updateEvent` (`google.js` lines 157-190). -/
def gsUpdateEvent (o : CollabOracle) : Except String Unit :=
  match o.update with
  | .error _ => .error "Failed to update calendar event"
  | .ok _ => .ok ()

/-- `googleService.deleteEvent` (`google.js` lines 192-207). -/
def gsDeleteEvent (o : CollabOracle) : Except String Unit :=
  match o.delete with
  | .error _ => .error "Failed to delete calendar event"
  | .ok _ => .ok ()

/-- `googleService.sendInvite` (`google.js` lines 230-267). -/
def gsSendInvite (o : CollabOracle) : Except String Unit :=
  match o.invite with
  | .error _ => .error "Failed to send meeting invitation"
  | .ok _ => .ok ()

/-- `agent.getFreeSlots(userId, args)` handler: parses the window and the
duration (default 60 minutes) and calls the collaborator; a rejection is
caught and returned as a success-false payload. -/
def agentGetFreeSlots (o : CollabOracle) (a : ToolArgs) (db : Db) :
    ToolResVal × Db × List Effect :=
  match gsGetFreeSlots o (a.startDate.getD 0) (a.endDate.getD 0)
      (a.duration.getD 60) with
  | .ok slots => (.okSlots slots, db, [.calendarFreeBusy])
  | .error e => (.failMsg e, db, [.calendarFreeBusy])

/-- `agent.createEvent(userId, args)` handler (`part_002` lines 475-529):
Google insert, then `Event` save, then interaction log, each awaited inside
the handler's try; the first rejection is caught and returned as a
success-false payload.  The saved document enters the store only when the
save succeeds. -/
def agentCreateEvent (o : CollabOracle) (userId : String) (a : ToolArgs)
    (db : Db) : ToolResVal × Db × List Effect :=
  match gsCreateEvent o with
  | .error e => (.failMsg e, db, [.calendarCreate])
  | .ok gid =>
    let ev : EventRec :=
      { id := o.newId, userId := userId, googleEventId := some gid,
        title := a.title.getD "undefined", descr := a.descr.getD "",
        startTime := a.startTime.getD 0, stopTime := a.endTime.getD 0,
        attendees := a.attendees.getD [], location := a.location.getD "",
        status := "scheduled", reminderTime := none }
    match o.save with
    | .error e => (.failMsg e, db, [.calendarCreate, .dbSave o.newId])
    | .ok _ =>
      match o.log with
      | .error e => (.failMsg e, db ++ [ev], [.calendarCreate, .dbSave o.newId])
      | .ok _ =>
        (.okMsg ("Event \"" ++ a.title.getD "undefined" ++
          "\" created successfully"), db ++ [ev],
          [.calendarCreate, .dbSave o.newId])

/-- `Object.assign(event, updateData)` for the updatable fields of the
`updateEvent` schema. -/
def applyUpdate (a : ToolArgs) (e : EventRec) : EventRec :=
  { e with
    title := a.title.getD e.title,
    descr := a.descr.getD e.descr,
    startTime := a.startTime.getD e.startTime,
    stopTime := a.endTime.getD e.stopTime,
    attendees := a.attendees.getD e.attendees,
    location := a.location.getD e.location }

/-- `agent.updateEvent(userId, args)` handler (`part_002` lines 531-567):
lookup and ownership guard, Google update when a `googleEventId` is stored,
assign the update and set status `rescheduled`, save, log. -/
def agentUpdateEvent (o : CollabOracle) (userId : String) (a : ToolArgs)
    (db : Db) : ToolResVal × Db × List Effect :=
  match findById db a.eventId with
  | none => (.failMsg "Event not found", db, [])
  | some ev =>
    if ev.userId ≠ userId then (.failMsg "Event not found", db, [])
    else
      let g : Except String Unit × List Effect :=
        match ev.googleEventId with
        | some _ => (gsUpdateEvent o, [.calendarUpdate])
        | none => (.ok (), [])
      match g.1 with
      | .error e => (.failMsg e, db, g.2)
      | .ok _ =>
        let ev' := { applyUpdate a ev with status := "rescheduled" }
        match o.save with
        | .error e => (.failMsg e, db, g.2 ++ [.dbSave ev.id])
        | .ok _ =>
          match o.log with
          | .error e => (.failMsg e, updateById db ev.id ev',
              g.2 ++ [.dbSave ev.id])
          | .ok _ => (.okMsg "Event updated successfully",
              updateById db ev.id ev', g.2 ++ [.dbSave ev.id])

/-- `agent.deleteEvent(userId, args)` handler (`part_002` lines 569-610):
lookup and ownership guard, Google delete when a `googleEventId` is stored,
set status `cancelled`, save, log. -/
def agentDeleteEvent (o : CollabOracle) (userId : String) (a : ToolArgs)
    (db : Db) : ToolResVal × Db × List Effect :=
  match findById db a.eventId with
  | none => (.failMsg "Event not found", db, [])
  | some ev =>
    if ev.userId ≠ userId then (.failMsg "Event not found", db, [])
    else
      let g : Except String Unit × List Effect :=
        match ev.googleEventId with
        | some _ => (gsDeleteEvent o, [.calendarDelete])
        | none => (.ok (), [])
      match g.1 with
      | .error e => (.failMsg e, db, g.2)
      | .ok _ =>
        let ev' := { ev with status := "cancelled" }
        match o.save with
        | .error e => (.failMsg e, db, g.2 ++ [.dbSave ev.id])
        | .ok _ =>
          match o.log with
          | .error e => (.failMsg e, updateById db ev.id ev',
              g.2 ++ [.dbSave ev.id])
          | .ok _ => (.okMsg ("Event \"" ++ ev.title ++
              "\" cancelled successfully"),
              updateById db ev.id ev', g.2 ++ [.dbSave ev.id])

/-- `agent.getUpcomingEvents(userId, args)` handler (`part_002` lines
612-632): a read of the `Event` collection (limit default 10); the success
payload is summarized by the ids of the returned events. -/
def agentGetUpcoming (o : CollabOracle) (userId : String) (a : ToolArgs)
    (db : Db) : ToolResVal × Db × List Effect :=
  (.okEvents ((findUpcoming db userId o.now (a.limit.getD 10)).map
    (fun e => e.id)), db, [])

/-- `agent.sendInvite(userId, args)` handler (`part_002` lines 634-652):
lookup and ownership guard, then the mail collaborator call. -/
def agentSendInvite (o : CollabOracle) (userId : String) (a : ToolArgs)
    (db : Db) : ToolResVal × Db × List Effect :=
  match findById db a.eventId with
  | none => (.failMsg "Event not found", db, [])
  | some ev =>
    if ev.userId ≠ userId then (.failMsg "Event not found", db, [])
    else
      match gsSendInvite o with
      | .error e => (.failMsg e, db, [.mailSendInvite])
      | .ok _ => (.okMsg ("Invitations sent to " ++
          toString (a.attendees.getD []).length ++ " attendees"), db,
          [.mailSendInvite])

/-- `agent.setReminder(userId, args)` handler (`part_002` lines 654-672):
lookup and ownership guard, compute `reminderTime` (default 30 minutes
before the event), save. -/
def agentSetReminder (o : CollabOracle) (userId : String) (a : ToolArgs)
    (db : Db) : ToolResVal × Db × List Effect :=
  match findById db a.eventId with
  | none => (.failMsg "Event not found", db, [])
  | some ev =>
    if ev.userId ≠ userId then (.failMsg "Event not found", db, [])
    else
      let m := a.minutesBefore.getD 30
      let ev' := { ev with reminderTime := some (ev.startTime - m * 60 * 1000) }
      match o.save with
      | .error e => (.failMsg e, db, [.dbSave ev.id])
      | .ok _ => (.okMsg ("Reminder set for " ++ toString m ++
          " minutes before the event"), updateById db ev.id ev',
          [.dbSave ev.id])

/-- One iteration of the `executeTools` loop: parse the arguments (a parse
throw is caught by the loop's catch block and pushed as a bare error
entry), then dispatch on the tool name through the switch; the default
case produces the bare `Unknown tool` error object. -/
def execOne (o : CollabOracle) (userId : String) (tc : ToolCallIn)
    (db : Db) : ToolResVal × Db × List Effect :=
  match tc.args with
  | .error e => (.errOnly e, db, [])
  | .ok a =>
    match tc.name with
    | "getFreeSlots" => agentGetFreeSlots o a db
    | "createEvent" => agentCreateEvent o userId a db
    | "updateEvent" => agentUpdateEvent o userId a db
    | "deleteEvent" => agentDeleteEvent o userId a db
    | "getUpcomingEvents" => agentGetUpcoming o userId a db
    | "sendInvite" => agentSendInvite o userId a db
    | "setReminder" => agentSetReminder o userId a db
    | other => (.errOnly ("Unknown tool: " ++ other), db, [])

/-- `executeTools(userId, toolCalls)` (`part_002` lines 401-451): process
the tool calls sequentially in input order, pushing one result entry per
call; a failure in one call never aborts the loop.  Each call is paired
with the collaborator outcomes the external world would give it. -/
def executeTools (userId : String) :
    List (ToolCallIn × CollabOracle) → Db → List ToolEntry × Db × List Effect
  | [], db => ([], db, [])
  | (tc, o) :: rest, db =>
    let r := execOne o userId tc db
    let t := executeTools userId rest r.2.1
    (⟨tc.id, r.1⟩ :: t.1, t.2.1, r.2.2 ++ t.2.2)

/-- One completion response: optional text content and the optional
`tool_calls` array (`none` models the field being absent; JavaScript
truthiness makes any present array, even an empty one, enter the dispatch
branch).  Each requested call is paired with its collaborator-outcome
oracle. -/
structure ModelResp where
  content : Option String := none
  toolCalls : Option (List (ToolCallIn × CollabOracle)) := none

/-- Outcomes of the awaited external calls one turn can make, in program
order: the initial interaction-log write, the first completion call, the
follow-up completion call, the response-log write, and the catch-path
error-log write. -/
structure TurnOracle where
  logIn : Except String Unit := .ok ()
  model1 : Except String ModelResp := .ok {}
  model2 : Except String ModelResp := .ok {}
  logOut : Except String Unit := .ok ()
  logErr : Except String Unit := .ok ()

/-- JavaScript `x || d` on an optional string: `undefined` and `""` are
falsy. -/
def jsOr (x : Option String) (d : String) : String :=
  match x with
  | none => d
  | some s => if s = "" then d else s

/-- The value `processRequest` resolves with. -/
structure TurnResult where
  reply : String
  success : Bool
  error : Option String := none
deriving DecidableEq, Repr

/-- Everything observable about one turn: the settled value of the
`processRequest` promise (`.error` means an exception escaped), the number
of completion calls made, the first completion's response when one was
received, the tool result entries built, the final `Event` store, and the
external effects attempted. -/
structure TurnOut where
  result : Except String TurnResult
  modelCalls : Nat
  firstResp : Option ModelResp
  toolEntries : List ToolEntry
  db : Db
  effects : List Effect

/-- The initialization of `finalResponse` in `processRequest`. -/
def defaultReply : String := "I'm here to help with your scheduling needs."

/-- The reply built by the catch block of `processRequest`. -/
def fallbackReply : String :=
  "I apologize, but I encountered an error while processing your request. Please try again."

/-- `processRequest(userId, input, isVoice, options)` (`part_002` lines
254-398).  Control flow: log the interaction; first completion call; in
streaming mode consume only the content deltas of the single streamed
response; otherwise, when the response carries a `tool_calls` array,
dispatch through `executeTools` and make exactly one follow-up completion
call; log and return `{reply, success: true}`.  Any rejection lands in the
single catch block, which awaits an error-log write and then resolves with
the apologetic fallback and `success: false` — if that error-log write
itself rejects, the exception escapes the call.  The utterance text,
voice flag, session context and timing fields do not affect any modelled
observable and are omitted. -/
def processRequest (userId : String) (streaming : Bool) (o : TurnOracle)
    (db : Db) : TurnOut :=
  let failWith := fun (e : String) (calls : Nat) (fr : Option ModelResp)
      (entries : List ToolEntry) (db' : Db) (effs : List Effect) =>
    match o.logErr with
    | .error e2 => TurnOut.mk (.error e2) calls fr entries db' effs
    | .ok _ =>
      TurnOut.mk (.ok ⟨fallbackReply, false, some e⟩) calls fr entries db' effs
  match o.logIn with
  | .error e => failWith e 0 none [] db []
  | .ok _ =>
    match o.model1 with
    | .error e => failWith e 1 none [] db []
    | .ok resp =>
      if streaming then
        match o.logOut with
        | .error e => failWith e 1 (some resp) [] db []
        | .ok _ =>
          ⟨.ok ⟨resp.content.getD "", true, none⟩, 1, some resp, [], db, []⟩
      else
        let fr1 := jsOr resp.content defaultReply
        match resp.toolCalls with
        | none =>
          match o.logOut with
          | .error e => failWith e 1 (some resp) [] db []
          | .ok _ => ⟨.ok ⟨fr1, true, none⟩, 1, some resp, [], db, []⟩
        | some calls =>
          let t := executeTools userId calls db
          match o.model2 with
          | .error e => failWith e 2 (some resp) t.1 t.2.1 t.2.2
          | .ok resp2 =>
            let fr2 := jsOr resp2.content fr1
            match o.logOut with
            | .error e => failWith e 2 (some resp) t.1 t.2.1 t.2.2
            | .ok _ =>
              ⟨.ok ⟨fr2, true, none⟩, 2, some resp, t.1, t.2.1, t.2.2⟩

/-- C10: for every `updateEvent`, `deleteEvent`, `sendInvite` or
`setReminder` tool call whose `eventId` matches no stored event or matches
an event owned by a different user, the handler returns the success-false
payload `Event not found`, the event store is unchanged, and no calendar or
mail collaborator call and no store write is attempted. -/
theorem eventHandlers_not_found_guard (o : CollabOracle) (userId : String)
    (a : ToolArgs) (db : Db)
    (h : findById db a.eventId = none ∨
         ∃ ev, findById db a.eventId = some ev ∧ ev.userId ≠ userId) :
    agentUpdateEvent o userId a db = (.failMsg "Event not found", db, []) ∧
    agentDeleteEvent o userId a db = (.failMsg "Event not found", db, []) ∧
    agentSendInvite o userId a db = (.failMsg "Event not found", db, []) ∧
    agentSetReminder o userId a db = (.failMsg "Event not found", db, []) := by
  rcases h with h | ⟨ev, hev, hne⟩
  · simp [agentUpdateEvent, agentDeleteEvent, agentSendInvite,
      agentSetReminder, h]
  · simp [agentUpdateEvent, agentDeleteEvent, agentSendInvite,
      agentSetReminder, hev, hne]

/-- Witness for C10 at a concrete input: an absent `eventId` over an empty
store. -/
theorem eventHandlers_not_found_guard_witness :
    agentUpdateEvent {} "u" {} [] = (.failMsg "Event not found", [], []) ∧
    agentDeleteEvent {} "u" {} [] = (.failMsg "Event not found", [], []) ∧
    agentSendInvite {} "u" {} [] = (.failMsg "Event not found", [], []) ∧
    agentSetReminder {} "u" {} [] = (.failMsg "Event not found", [], []) :=
  eventHandlers_not_found_guard {} "u" {} [] (Or.inl rfl)

/-- C9: a tool call whose name is outside the seven-name set is captured by
the dispatch default case as a bare `Unknown tool` error entry (the
store untouched, no effects), and the turn still completes normally: the
finalizing call runs and the turn resolves successfully with its reply. -/
theorem unknownTool_captured (co : CollabOracle) (userId i nm : String)
    (a : ToolArgs) (db : Db)
    (hnm : nm ∉ (["getFreeSlots", "createEvent", "updateEvent", "deleteEvent",
      "getUpcomingEvents", "sendInvite", "setReminder"] : List String))
    (o : TurnOracle) (resp1 resp2 : ModelResp) (r2 : String)
    (hin : o.logIn = .ok ()) (hm1 : o.model1 = .ok resp1)
    (hcalls : resp1.toolCalls = some [(⟨i, nm, .ok a⟩, co)])
    (hm2 : o.model2 = .ok resp2) (hc2 : resp2.content = some r2)
    (hne : r2 ≠ "") (hout : o.logOut = .ok ()) :
    execOne co userId ⟨i, nm, .ok a⟩ db =
      (.errOnly ("Unknown tool: " ++ nm), db, []) ∧
    (processRequest userId false o db).toolEntries =
      [⟨i, .errOnly ("Unknown tool: " ++ nm)⟩] ∧
    (processRequest userId false o db).result = .ok ⟨r2, true, none⟩ ∧
    (processRequest userId false o db).modelCalls = 2 := by
  simp only [List.mem_cons, List.mem_singleton, not_or] at hnm
  have hexec : execOne co userId ⟨i, nm, .ok a⟩ db =
      (.errOnly ("Unknown tool: " ++ nm), db, []) := by
    simp only [execOne]
    split <;> simp_all
  refine ⟨hexec, ?_, ?_, ?_⟩ <;>
    simp [processRequest, hin, hm1, hcalls, hm2, hout, executeTools, hexec,
      jsOr, hc2, hne]

/-- Witness oracle data for the unknown-tool scenario. -/
def c9Call : ToolCallIn := ⟨"1", "doSomethingElse", .ok {}⟩

def c9Resp1 : ModelResp :=
  { content := some "let me check", toolCalls := some [(c9Call, {})] }

def c9Resp2 : ModelResp := { content := some "sorry, I cannot do that" }

def c9Oracle : TurnOracle := { model1 := .ok c9Resp1, model2 := .ok c9Resp2 }

/-- Witness for C9 at a concrete input: a tool call named
`doSomethingElse`. -/
theorem unknownTool_captured_witness :
    execOne {} "u" c9Call [] =
      (.errOnly ("Unknown tool: " ++ "doSomethingElse"), [], []) ∧
    (processRequest "u" false c9Oracle []).toolEntries =
      [⟨"1", .errOnly ("Unknown tool: " ++ "doSomethingElse")⟩] ∧
    (processRequest "u" false c9Oracle []).result =
      .ok ⟨"sorry, I cannot do that", true, none⟩ ∧
    (processRequest "u" false c9Oracle []).modelCalls = 2 :=
  unknownTool_captured {} "u" "1" "doSomethingElse" {} [] (by decide)
    c9Oracle c9Resp1 c9Resp2 "sorry, I cannot do that" rfl rfl rfl rfl rfl
    (by decide) rfl

/-- C7: in a turn whose model response contains two tool calls — a
`createEvent` whose calendar collaborator call rejects, then a
`getUpcomingEvents` that succeeds — dispatch produces exactly one error
entry and one success entry, in input order, the failure never aborting the
sibling call; the finalizing model call still executes and the turn
resolves with its reply instead of an exception. -/
theorem executeTools_fault_isolation (userId i1 i2 e : String)
    (a1 a2 : ToolArgs) (o1 o2 : CollabOracle) (db : Db)
    (hfail : o1.create = .error e)
    (o : TurnOracle) (resp1 resp2 : ModelResp) (r2 : String)
    (hin : o.logIn = .ok ()) (hm1 : o.model1 = .ok resp1)
    (hcalls : resp1.toolCalls =
      some [(⟨i1, "createEvent", .ok a1⟩, o1),
            (⟨i2, "getUpcomingEvents", .ok a2⟩, o2)])
    (hm2 : o.model2 = .ok resp2) (hc2 : resp2.content = some r2)
    (hne : r2 ≠ "") (hout : o.logOut = .ok ()) :
    (executeTools userId
        [(⟨i1, "createEvent", .ok a1⟩, o1),
         (⟨i2, "getUpcomingEvents", .ok a2⟩, o2)] db).1 =
      [⟨i1, .failMsg "Failed to create calendar event"⟩,
       ⟨i2, .okEvents ((findUpcoming db userId o2.now (a2.limit.getD 10)).map
         (fun ev => ev.id))⟩] ∧
    (processRequest userId false o db).toolEntries =
      [⟨i1, .failMsg "Failed to create calendar event"⟩,
       ⟨i2, .okEvents ((findUpcoming db userId o2.now (a2.limit.getD 10)).map
         (fun ev => ev.id))⟩] ∧
    (processRequest userId false o db).modelCalls = 2 ∧
    (processRequest userId false o db).result = .ok ⟨r2, true, none⟩ := by
  have hexec : (executeTools userId
      [(⟨i1, "createEvent", .ok a1⟩, o1),
       (⟨i2, "getUpcomingEvents", .ok a2⟩, o2)] db) =
      ([⟨i1, .failMsg "Failed to create calendar event"⟩,
        ⟨i2, .okEvents ((findUpcoming db userId o2.now (a2.limit.getD 10)).map
          (fun ev => ev.id))⟩], db, [.calendarCreate]) := by
    simp [executeTools, execOne, agentCreateEvent, gsCreateEvent, hfail,
      agentGetUpcoming]
  refine ⟨by rw [hexec], ?_, ?_, ?_⟩ <;>
    simp [processRequest, hin, hm1, hcalls, hm2, hout, hexec, jsOr, hc2, hne]

/-- Witness oracle data for the fault-isolation scenario: the calendar
insert rejects, the upcoming-events read succeeds. -/
def c7FaultyOracle : CollabOracle := { create := .error "calendar down" }

def c7Calls : List (ToolCallIn × CollabOracle) :=
  [(⟨"1", "createEvent", .ok {}⟩, c7FaultyOracle),
   (⟨"2", "getUpcomingEvents", .ok {}⟩, {})]

def c7Resp1 : ModelResp :=
  { content := some "working on it", toolCalls := some c7Calls }

def c7Resp2 : ModelResp := { content := some "created nothing, listed events" }

def c7Oracle : TurnOracle := { model1 := .ok c7Resp1, model2 := .ok c7Resp2 }

/-- Witness for C7 at a concrete input. -/
theorem executeTools_fault_isolation_witness :
    (executeTools "u" c7Calls []).1 =
      [⟨"1", .failMsg "Failed to create calendar event"⟩,
       ⟨"2", .okEvents ((findUpcoming [] "u" ({} : CollabOracle).now
         (({} : ToolArgs).limit.getD 10)).map (fun ev => ev.id))⟩] ∧
    (processRequest "u" false c7Oracle []).toolEntries =
      [⟨"1", .failMsg "Failed to create calendar event"⟩,
       ⟨"2", .okEvents ((findUpcoming [] "u" ({} : CollabOracle).now
         (({} : ToolArgs).limit.getD 10)).map (fun ev => ev.id))⟩] ∧
    (processRequest "u" false c7Oracle []).modelCalls = 2 ∧
    (processRequest "u" false c7Oracle []).result =
      .ok ⟨"created nothing, listed events", true, none⟩ :=
  executeTools_fault_isolation "u" "1" "2" "calendar down" {} {}
    c7FaultyOracle {} [] rfl c7Oracle c7Resp1 c7Resp2
    "created nothing, listed events" rfl rfl rfl rfl rfl (by decide) rfl

/-- Turn oracle on which C8's "no exception escapes" fails: the first model
call rejects and the catch-path error-log write also rejects. -/
def c8FailingOracle : TurnOracle :=
  { model1 := .error "model unavailable", logErr := .error "log db down" }

/-- C8 as stated is false: the catch block of `processRequest` awaits the
error-log write unprotected, so in a turn where the first model call fails
and that Mongo write also rejects, the exception escapes the call instead
of the fallback reply being returned. -/
theorem processRequest_model_failure_counterexample :
    (processRequest "u" false c8FailingOracle []).result =
      .error "log db down" := rfl

/-- C8 amended: in every turn whose first model call fails, provided the
catch-path error-log write succeeds, the turn resolves — no escaping
exception — with the apologetic fallback reply, success false, no tool
results, no external effects, an unchanged store, and no further model
call. -/
theorem processRequest_model_failure_fallback (userId : String)
    (streaming : Bool) (o : TurnOracle) (db : Db) (e : String)
    (hin : o.logIn = .ok ()) (hm : o.model1 = .error e)
    (hle : o.logErr = .ok ()) :
    (processRequest userId streaming o db).result =
      .ok ⟨fallbackReply, false, some e⟩ ∧
    (processRequest userId streaming o db).toolEntries = [] ∧
    (processRequest userId streaming o db).effects = [] ∧
    (processRequest userId streaming o db).db = db ∧
    (processRequest userId streaming o db).modelCalls = 1 := by
  refine ⟨?_, ?_, ?_, ?_, ?_⟩ <;> simp [processRequest, hin, hm, hle]

/-- Witness oracle for C8 amended: only the first model call fails. -/
def c8Oracle : TurnOracle := { model1 := .error "model unavailable" }

/-- Witness for C8 amended at a concrete input. -/
theorem processRequest_model_failure_fallback_witness :
    (processRequest "u" false c8Oracle []).result =
      .ok ⟨fallbackReply, false, some "model unavailable"⟩ ∧
    (processRequest "u" false c8Oracle []).toolEntries = [] ∧
    (processRequest "u" false c8Oracle []).effects = [] ∧
    (processRequest "u" false c8Oracle []).db = [] ∧
    (processRequest "u" false c8Oracle []).modelCalls = 1 :=
  processRequest_model_failure_fallback "u" false c8Oracle []
    "model unavailable" rfl rfl rfl

/-- A streamed response that carries a tool-calls array (the streaming
consumer reads only content deltas). -/
def c6StreamResp : ModelResp :=
  { content := some "hi",
    toolCalls := some [(⟨"1", "getUpcomingEvents", .ok {}⟩, {})] }

def c6StreamOracle : TurnOracle := { model1 := .ok c6StreamResp }

/-- C6 as stated is false for streaming turns: a streaming turn whose
single model response carries tool calls makes no follow-up call — the
streaming branch of `processRequest` consumes only content deltas and
ignores tool calls — refuting "exactly one follow-up call if and only if
the initial response contains tool calls". -/
theorem processRequest_followup_iff_counterexample :
    (processRequest "u" true c6StreamOracle []).firstResp =
      some c6StreamResp ∧
    c6StreamResp.toolCalls.isSome = true ∧
    (processRequest "u" true c6StreamOracle []).modelCalls = 1 :=
  ⟨rfl, rfl, rfl⟩

/-- C6 amended: every turn makes at most two completion calls and never
retries a failed one; a non-streaming turn makes the single follow-up call
exactly when its first call succeeded with a response carrying a
tool-calls array; a streaming turn makes at most one call, ignoring any
tool calls in its response. -/
theorem processRequest_bounded_calls (userId : String) (streaming : Bool)
    (o : TurnOracle) (db : Db) :
    (processRequest userId streaming o db).modelCalls ≤ 2 ∧
    (streaming = false →
      ((processRequest userId streaming o db).modelCalls = 2 ↔
        ∃ r, (processRequest userId streaming o db).firstResp = some r ∧
          r.toolCalls.isSome = true)) ∧
    (streaming = true →
      (processRequest userId streaming o db).modelCalls ≤ 1) := by
  rcases o with ⟨li, m1, m2, lo, le⟩
  cases li with
  | error e1 =>
    cases le <;> cases streaming <;> simp [processRequest]
  | ok u =>
    cases m1 with
    | error e1 =>
      cases le <;> cases streaming <;> simp [processRequest]
    | ok resp =>
      rcases resp with ⟨c, tc⟩
      cases streaming with
      | true =>
        cases lo <;> cases le <;> simp [processRequest]
      | false =>
        cases tc with
        | none =>
          cases lo <;> cases le <;> simp [processRequest]
        | some calls =>
          cases m2 <;> cases lo <;> cases le <;> simp [processRequest]

/-- Witness for C6 amended at concrete inputs: a default non-streaming
turn (one call, no tool calls) and a default streaming turn. -/
theorem processRequest_bounded_calls_witness :
    (processRequest "u" false {} []).modelCalls ≤ 2 ∧
    ((processRequest "u" false {} []).modelCalls = 2 ↔
      ∃ r, (processRequest "u" false {} []).firstResp = some r ∧
        r.toolCalls.isSome = true) ∧
    (processRequest "u" true {} []).modelCalls ≤ 1 :=
  ⟨(processRequest_bounded_calls "u" false {} []).1,
   (processRequest_bounded_calls "u" false {} []).2.1 rfl,
   (processRequest_bounded_calls "u" true {} []).2.2 rfl⟩

end Ash
